import Mathlib

/-!
Verification of the MSSQL dialect layer (`lib/sqlalchemy/dialects/mssql/base.py`)
against its natural-language specification.  The Python source is shallowly
embedded: each relevant Python function becomes a Lean definition of the same
name, and the spec's claims become theorems about those definitions.
-/

namespace MssqlDialect

/- ## Pagination model

A LIMIT or OFFSET clause on a `Select` is either a "simple integer" bind
parameter (`_OffsetLimitParam`, for which `_simple_int_limit` /
`_simple_int_offset` are true and `_limit` / `_offset` yield the integer), or
an arbitrary SQL expression (opaque here). -/

inductive LimExpr where
  | int (n : Nat)
  | expr (id : Nat)
  deriving DecidableEq, Repr

/-- The fields of a core `Select` statement that the MSSQL compiler's
pagination logic reads: `_limit_clause`, `_offset_clause`,
`_order_by_clause.clauses` (elements kept opaque as strings), and the
`_mssql_visit` tag set by `translate_select_structure` on the inner select of
a ROW_NUMBER rewrite. -/
structure Select where
  limit_clause : Option LimExpr
  offset_clause : Option LimExpr
  order_by : List String
  mssql_visit : Bool
  deriving DecidableEq, Repr

/-- Python `select._simple_int_limit`: the limit clause is a simple integer value. -/
def simpleIntLimit (s : Select) : Bool :=
  match s.limit_clause with
  | some (.int _) => true
  | _ => false

/-- Python `select._simple_int_offset`: the offset clause is a simple integer value. -/
def simpleIntOffset (s : Select) : Bool :=
  match s.offset_clause with
  | some (.int _) => true
  | _ => false

/-- Python `select._offset` used in a boolean position (`not select._offset`,
`or select._offset`): truthy exactly when the offset clause is a simple
integer different from 0.  (For a non-simple clause Python would raise, but
every use in the source is short-circuit-guarded by `_simple_int_offset` /
`is None` checks, so the value returned in that branch is irrelevant.) -/
def offsetTruthy (s : Select) : Bool :=
  match s.offset_clause with
  | some (.int n) => n != 0
  | _ => false

/-- Python `select._offset` as an integer, used only under a `_simple_int_offset`
guard (`select._offset == 0` in `get_select_precolumns`). -/
def offsetVal (s : Select) : Nat :=
  match s.offset_clause with
  | some (.int n) => n
  | _ => 0

/- ### The three pagination strategy guards, transcribed from the source. -/

/-- Guard of the `TOP n` branch in `MSSQLCompiler.get_select_precolumns`:
`select._simple_int_limit and (select._offset_clause is None or
(select._simple_int_offset and select._offset == 0))`. -/
def topApplies (s : Select) : Bool :=
  simpleIntLimit s &&
    (s.offset_clause.isNone || (simpleIntOffset s && offsetVal s == 0))

/-- Negation of the early-return guard of `MSSQLCompiler.limit_clause`:
the native OFFSET/FETCH rendering happens unless
`not self.dialect._supports_offset_fetch or (select._simple_int_limit or
select._limit_clause is None) and (select._offset_clause is None or
select._simple_int_offset) and not select._offset`. -/
def nativeOffsetFetchApplies (supportsOffsetFetch : Bool) (s : Select) : Bool :=
  !(!supportsOffsetFetch ||
    ((simpleIntLimit s || s.limit_clause.isNone) &&
      (s.offset_clause.isNone || simpleIntOffset s) &&
      !offsetTruthy s))

/-- Guard of the ROW_NUMBER rewrite in
`MSSQLCompiler.translate_select_structure`:
`not self.dialect._supports_offset_fetch and ((not select._simple_int_limit
and select._limit_clause is not None) or (select._offset_clause is not None
and not select._simple_int_offset or select._offset)) and not
getattr(select, "_mssql_visit", None)`. -/
def rowNumberRewriteApplies (supportsOffsetFetch : Bool) (s : Select) : Bool :=
  !supportsOffsetFetch &&
    ((!simpleIntLimit s && s.limit_clause.isSome) ||
      ((s.offset_clause.isSome && !simpleIntOffset s) || offsetTruthy s)) &&
    !s.mssql_visit

/- ### Rendering of limit/offset expressions -/

/-- Python `self.process(clause, **kw)` on a limit/offset clause.  A simple integer
clause is a bind parameter: it renders inline as the literal integer when
`literal_execute` is set in `kw`, and as a bound-parameter marker otherwise;
an arbitrary expression renders as its (opaque) SQL text. -/
def processClause (e : LimExpr) (literalExecute : Bool) : String :=
  match e with
  | .int n => if literalExecute then toString n else ":param_" ++ toString n
  | .expr i => "<expr_" ++ toString i ++ ">"

/-- Python `MSSQLCompiler.get_select_precolumns`: the contribution of the MSSQL
compiler after the core compiler's pre-column text (empty for a plain
select).  In the `TOP` branch the source sets `kw["literal_execute"] = True`
before processing the limit clause, forcing an inline literal. -/
def get_select_precolumns (s : Select) : String :=
  if topApplies s then
    match s.limit_clause with
    | some lim => "TOP " ++ processClause lim true ++ " "
    | none => ""
  else ""

def compileErrorOrderBy : String :=
  "MSSQL requires an order_by when using an OFFSET or a non-simple LIMIT clause"

/-- Python `MSSQLCompiler.limit_clause`: renders the native `OFFSET ... ROWS
[FETCH NEXT ... ROWS ONLY]` suffix, raising `CompileError` (`.error`) when
the statement has no ORDER BY. -/
def limit_clause (supportsOffsetFetch : Bool) (s : Select) :
    Except String String :=
  if !(nativeOffsetFetchApplies supportsOffsetFetch s) then
    .ok ""
  else if s.order_by.isEmpty then
    .error compileErrorOrderBy
  else
    let offset_str :=
      match s.offset_clause with
      | some o => processClause o false
      | none => "0"
    let text := "\n OFFSET " ++ offset_str ++ " ROWS"
    let text :=
      match s.limit_clause with
      | some l => text ++ "\n FETCH NEXT " ++ processClause l false ++ " ROWS ONLY "
      | none => text
    .ok text

/- ### The ROW_NUMBER rewrite -/

/-- The upper-bound expression of a rank filter: `mssql_rn <= limit_clause`
or `mssql_rn <= (limit_clause + offset_clause)`. -/
inductive RankBound where
  | expr (e : LimExpr)
  | add (l o : LimExpr)
  deriving DecidableEq, Repr

/-- One WHERE condition added on the outer select of the rewrite. -/
inductive RankFilter where
  | rankGt (e : LimExpr)
  | rankLe (b : RankBound)
  deriving DecidableEq, Repr

/-- The rewritten statement produced by `translate_select_structure`:
`inner` is the `_generate()`d copy of the original select, tagged with
`_mssql_visit = True`, its ORDER BY cleared (`order_by(None)`) and a
`ROW_NUMBER() OVER (ORDER BY <original order-by>)` column labelled
`mssql_rn` added; the outer select keeps every original column except
`mssql_rn`, carries the rank filters as WHERE conditions, and is built by
`sql.select(...)` with no ORDER BY of its own. -/
structure RowNumberRewrite where
  inner : Select
  rnOrderBy : List String
  filters : List RankFilter
  outerOrderBy : List String
  deriving DecidableEq, Repr

inductive TranslateResult where
  | ok (s : Select)
  | rewritten (r : RowNumberRewrite)
  | error (msg : String)
  deriving DecidableEq, Repr

/-- Python `MSSQLCompiler.translate_select_structure`: wraps a paginated select in
a ROW_NUMBER subquery when the dialect has no native OFFSET/FETCH support.
(`unwrap_label_reference` on the order-by elements is the identity on our
opaque order-by representation.) -/
def translate_select_structure (supportsOffsetFetch : Bool) (s : Select) :
    TranslateResult :=
  if rowNumberRewriteApplies supportsOffsetFetch s then
    if s.order_by.isEmpty then
      .error compileErrorOrderBy
    else
      let inner : Select :=
        { s with mssql_visit := true, order_by := [] }
      let filters : List RankFilter :=
        match s.offset_clause with
        | some o =>
          .rankGt o ::
            (match s.limit_clause with
             | some l => [.rankLe (.add l o)]
             | none => [])
        | none =>
          -- under the rewrite guard with no offset clause, the limit clause
          -- is necessarily present and non-simple
          match s.limit_clause with
          | some l => [.rankLe (.expr l)]
          | none => []
      .rewritten
        { inner := inner
          rnOrderBy := s.order_by
          filters := filters
          outerOrderBy := [] }
  else
    .ok s

/- ## Schema-qualifier resolution (`_schema_elements`, `_owner_plus_db`,
`_get_default_schema_name`)

Schema strings are modelled as `List Char`; a `quoted_name` with its
`quote` flag is a `RawSchema`.  `_schema_elements` iterates over
`re.split(r"(\[|\]|\.)", schema)`, which is equivalent to a character-level
scan: every `[`, `]` and `.` is its own token and every other maximal run
contributes its characters in order to the current `symbol` (the `if not
token: continue` line only skips empty tokens, which contribute nothing). -/

/-- A schema string together with the `quoted_name.quote` flag
(`quote = true` models `quoted_name(s, quote=True)`; a plain `str` has
`quote = false`). -/
structure RawSchema where
  name : List Char
  quote : Bool
  deriving DecidableEq, Repr

/-- The `push` list built by the token loop of `_schema_elements`, given the
remaining input and the loop state (`symbol`, `bracket`, `has_brackets`). -/
def schemaPushes : List Char → List Char → Bool → Bool → List (List Char)
  | [], symbol, _, _ => if symbol.isEmpty then [] else [symbol]
  | c :: rest, symbol, bracket, hasBrackets =>
    if c = '[' then
      schemaPushes rest symbol true true
    else if c = ']' then
      schemaPushes rest symbol false hasBrackets
    else if c = '.' && !bracket then
      (if hasBrackets then '[' :: (symbol ++ [']']) else symbol) ::
        schemaPushes rest [] false false
    else
      schemaPushes rest (symbol ++ [c]) bracket hasBrackets

/-- Python `re.match(r".*\].*\[.*", inner)`: a prefix of `inner` matches
`.*\].*\[` , i.e. some `]` is followed (at any distance) by some `[`, with
no newline before that `[` (Python's `.` does not match a newline). -/
def hasCloseThenOpen (xs : List Char) : Bool :=
  match xs.dropWhile (· ≠ ']') with
  | [] => false
  | _ :: rest => rest.contains '['

def internalBracketTest (inner : List Char) : Bool :=
  hasCloseThenOpen (inner.takeWhile (· ≠ '\n'))

/-- Python `dbname.lstrip("[").rstrip("]")`: strip all leading `[` and all
trailing `]`. -/
def stripOuterBrackets (d : List Char) : List Char :=
  ((d.dropWhile (· = '[')).reverse.dropWhile (· = ']')).reverse

/-- The body of `_schema_elements` after the `quoted_name` fast path and the
cache lookup (the result type is `(dbname, owner)`; the
`quoted_name(dbname, quote=False)` wrapper on a dbname with internal
brackets leaves the string itself unchanged). -/
def schemaElementsCore (schema : List Char) :
    Option (List Char) × Option (List Char) :=
  let push := schemaPushes schema [] false false
  if push.length > 1 then
    let dbname := List.intercalate ['.'] push.dropLast
    -- `push[-1]` (the guard ensures `push` is non-empty)
    let owner := push.getLastD []
    let dbname' :=
      if internalBracketTest ((dbname.drop 1).dropLast) then dbname
      else stripOuterBrackets dbname
    (some dbname', some owner)
  else
    match push with
    | [o] => (none, some o)
    | _ => (none, none)

/-- Python `_schema_elements` with its memoization cache made explicit: the
`quoted_name`-with-`quote` fast path returns before the cache is consulted
or written; otherwise a cached pair is returned as is, and a computed pair
is stored under the exact raw input string. -/
def schemaElementsCached
    (cache : List (List Char × (Option (List Char) × Option (List Char))))
    (s : RawSchema) :
    (Option (List Char) × Option (List Char)) ×
      List (List Char × (Option (List Char) × Option (List Char))) :=
  if s.quote then
    ((none, some s.name), cache)
  else
    match cache.lookup s.name with
    | some r => (r, cache)
    | none =>
      let r := schemaElementsCore s.name
      (r, (s.name, r) :: cache)

/-- Python `_owner_plus_db`: empty schema yields the dialect default schema name;
a schema containing a `.` goes through `_schema_elements`; otherwise the
schema is the owner. -/
def owner_plus_db (defaultSchemaName : List Char) (s : RawSchema) :
    Option (List Char) × Option (List Char) :=
  if s.name.isEmpty then (none, some defaultSchemaName)
  else if s.name.contains '.' then
    (schemaElementsCached [] s).1
  else (none, some s.name)

/-- All dot-separated segments of a bracket-free character list, keeping
empty segments (used to describe `schemaPushes` on bracket-free input). -/
def allSegs : List Char → List (List Char)
  | [] => [[]]
  | c :: r =>
    if c = '.' then [] :: allSegs r
    else
      match allSegs r with
      | s :: t => (c :: s) :: t
      | [] => [[c]]

/-- Python tuple `<` on version tuples (lexicographic, a strict prefix is
smaller). -/
def tupleLt : List Nat → List Nat → Bool
  | [], [] => false
  | [], _ :: _ => true
  | _ :: _, [] => false
  | a :: as', b :: bs' => a < b || (a == b && tupleLt as' bs')

/-- Python `MS_2005_VERSION = (9,)` -/
def MS_2005_VERSION : List Nat := [9]

/-- Python `MS_2012_VERSION = (11,)` -/
def MS_2012_VERSION : List Nat := [11]

/-- Python `MSDialect._get_default_schema_name`: below SQL Server 2005 the
configured `schema_name` is returned; otherwise the result of the
`SELECT schema_name()` probe (`probeResult`), wrapped as
`quoted_name(..., quote=True)` to guard against it being fed back into a
table-reflection function, falling back to the configured name when the
probe returns NULL. -/
def get_default_schema_name (serverVersionInfo : List Nat)
    (probeResult : Option (List Char)) (schemaName : List Char) : RawSchema :=
  if tupleLt serverVersionInfo MS_2005_VERSION then
    ⟨schemaName, false⟩
  else
    match probeResult with
    | some n => ⟨n, true⟩
    | none => ⟨schemaName, false⟩

/- ## Execution context (`MSExecutionContext`)

The per-invocation state read by `pre_exec` / `post_exec` /
`handle_dbapi_exception`.  Fields mirror the attributes the source consults:
`compiled.statement.table._autoincrement_column` (presence, and whether its
`default` is a `Sequence`), the compiled parameter sets, `compiled.inline`,
`compiled.returning`, `self.executemany`, and
`dialect.use_scope_identity`. -/

structure ExecContext where
  isinsert : Bool
  isupdate : Bool
  isdelete : Bool
  /-- Python `tbl._autoincrement_column is not None` -/
  hasAutoincrementColumn : Bool
  /-- Python `isinstance(id_column.default, Sequence)` -/
  autoincDefaultIsSequence : Bool
  /-- Python `id_column.key in self.compiled_parameters[0]` -/
  keyInCompiledParams : Bool
  /-- truthiness of `compile_state._dict_parameters` -/
  dictParametersTruthy : Bool
  /-- Python `id_column.key in compile_state._dict_parameters or id_column in
  compile_state._dict_parameters` -/
  keyOrColInDictParameters : Bool
  /-- Python `self.compiled.inline` -/
  inline : Bool
  /-- truthiness of `self.compiled.returning` -/
  returning : Bool
  /-- Python `self.executemany` -/
  executemany : Bool
  /-- Python `self.dialect.use_scope_identity` -/
  useScopeIdentity : Bool
  deriving DecidableEq, Repr

/-- Python `insert_has_identity` in `pre_exec`: the table has an autoincrement
column not driven by a `Sequence`. -/
def insertHasIdentity (c : ExecContext) : Bool :=
  c.hasAutoincrementColumn && !c.autoincDefaultIsSequence

/-- Python `self._enable_identity_insert` as computed by `pre_exec`. -/
def enableIdentityInsert (c : ExecContext) : Bool :=
  c.isinsert && insertHasIdentity c &&
    (c.keyInCompiledParams ||
      (c.dictParametersTruthy && c.keyOrColInDictParameters))

/-- Python `self._select_lastrowid` as computed by `pre_exec`. -/
def selectLastrowid (c : ExecContext) : Bool :=
  c.isinsert &&
    (!c.inline && insertHasIdentity c && !c.returning &&
      !enableIdentityInsert c && !c.executemany)

/-- The statements a single invocation issues on the connection's cursor. -/
inductive IssuedStmt where
  | setIdentityInsertOn
  | mainStatement
  | selectScopeIdentity
  | selectAtAtIdentity
  | setIdentityInsertOff
  deriving DecidableEq, Repr

/-- Python `MSExecutionContext.pre_exec`: issues `SET IDENTITY_INSERT ... ON` when
identity-insert mode is enabled. -/
def pre_exec (c : ExecContext) : List IssuedStmt :=
  if enableIdentityInsert c then [.setIdentityInsertOn] else []

/-- Python `MSExecutionContext.post_exec`: the statements issued after a successful
main statement — the last-row-id follow-up select when `_select_lastrowid`
(using `scope_identity()` or `@@identity` per `use_scope_identity`), then
`SET IDENTITY_INSERT ... OFF` when the mode was enabled. -/
def post_exec (c : ExecContext) : List IssuedStmt :=
  (if selectLastrowid c then
    (if c.useScopeIdentity then [.selectScopeIdentity]
     else [.selectAtAtIdentity])
   else []) ++
  (if enableIdentityInsert c then [.setIdentityInsertOff] else [])

/-- Python `MSExecutionContext.handle_dbapi_exception`: when identity-insert mode
was enabled, attempt `SET IDENTITY_INSERT ... OFF` inside
`try: ... except Exception: pass` — the statement is issued, and any failure
of it is swallowed. -/
def handle_dbapi_exception (c : ExecContext) : List IssuedStmt :=
  if enableIdentityInsert c then [.setIdentityInsertOff] else []

/-- Injected failure behaviour of the environment for one invocation:
whether the main statement raises, whether the cleanup `OFF` statement
raises, and the rows returned by the last-row-id follow-up select
(`cursor.fetchall()`). -/
structure FailurePlan where
  mainFails : Bool
  cleanupOffFails : Bool
  lastIdRows : List (List Int)
  deriving DecidableEq, Repr

inductive ExecError where
  | mainFailure
  | cleanupFailure
  deriving DecidableEq, Repr

/-- Python `int(self.cursor.fetchall()[0][0])` on the follow-up select's result
(`none` when no row/column is present, where Python would raise). -/
def parseLastId (rows : List (List Int)) : Option Int :=
  match rows with
  | (v :: _) :: _ => some v
  | _ => none

/-- Modelled from the spec: the engine's invocation protocol around the
three `MSExecutionContext` hooks (the engine itself is outside this
repository).  Per the spec, `pre_exec` runs before the main statement; on
success `post_exec` runs; on a main-statement failure
`handle_dbapi_exception` runs instead and the original error is re-raised
to the caller, any secondary failure of the cleanup being suppressed.
Returns the full statement trace, the propagated error (if any), and
`self._lastrowid`. -/
def runInvocation (c : ExecContext) (plan : FailurePlan) :
    List IssuedStmt × Option ExecError × Option Int :=
  let pre := pre_exec c
  if plan.mainFails then
    (pre ++ [.mainStatement] ++ handle_dbapi_exception c,
      some .mainFailure, none)
  else
    (pre ++ [.mainStatement] ++ post_exec c, none,
      if selectLastrowid c then parseLastId plan.lastIdRows else none)

/-- Number of occurrences of a statement kind in a trace. -/
def countStmt (t : IssuedStmt) (trace : List IssuedStmt) : Nat :=
  trace.count t

/-- Number of last-row-id follow-up selects in a trace. -/
def countLastIdFetch (trace : List IssuedStmt) : Nat :=
  trace.count .selectScopeIdentity + trace.count .selectAtAtIdentity

/- ## Type compiler (`MSTypeCompiler`) and the deprecate-large-types flag -/

/-- The fields of an abstract type descriptor read by the MSSQL type
compiler: `length` (with Python truthiness: `none` or `some 0` are falsy)
and `collation` (`none` models an absent or empty collation). -/
structure TypeDescr where
  length : Option Nat
  collation : Option String
  deriving DecidableEq, Repr

/-- Truthiness of `type_.length`, rendered: `none` when falsy. -/
def typeLengthStr (t : TypeDescr) : Option String :=
  match t.length with
  | some n => if n = 0 then none else some (toString n)
  | none => none

/-- Python `MSTypeCompiler._extend`: append `(length)` (the explicit argument if
truthy, else `type_.length` if truthy) and a `COLLATE` annotation. -/
def extendType (spec : String) (t : TypeDescr) (length : Option String) :
    String :=
  let collation :=
    match t.collation with
    | some c => if c.isEmpty then none else some ("COLLATE " ++ c)
    | none => none
  let length' :=
    match length with
    | some l => if l.isEmpty then typeLengthStr t else some l
    | none => typeLengthStr t
  let spec' :=
    match length' with
    | some l => spec ++ "(" ++ l ++ ")"
    | none => spec
  match collation with
  | some c => spec' ++ " " ++ c
  | none => spec'

/-- Python `type_.length or "max"` -/
def lengthOrMax (t : TypeDescr) : String :=
  match t.length with
  | some n => if n = 0 then "max" else toString n
  | none => "max"

def visit_NVARCHAR (t : TypeDescr) : String :=
  extendType "NVARCHAR" t (some (lengthOrMax t))

def visit_NTEXT (t : TypeDescr) : String :=
  extendType "NTEXT" t none

def visit_VARBINARY (t : TypeDescr) : String :=
  extendType "VARBINARY" t (some (lengthOrMax t))

def visit_IMAGE (_t : TypeDescr) : String :=
  "IMAGE"

/-- Truthiness of the tri-state `dialect.deprecate_large_types`
(`none` models `None`, still unset). -/
def truthyOpt (b : Option Bool) : Bool :=
  match b with
  | some x => x
  | none => false

/-- Python `MSTypeCompiler.visit_unicode_text`. -/
def visit_unicode_text (deprecateLargeTypes : Option Bool) (t : TypeDescr) :
    String :=
  if truthyOpt deprecateLargeTypes then visit_NVARCHAR t else visit_NTEXT t

/-- Python `MSTypeCompiler.visit_large_binary`. -/
def visit_large_binary (deprecateLargeTypes : Option Bool) (t : TypeDescr) :
    String :=
  if truthyOpt deprecateLargeTypes then visit_VARBINARY t else visit_IMAGE t

/-- The `deprecate_large_types` update in
`MSDialect._setup_version_attributes`: only when still `None` is it set to
`server_version_info >= MS_2012_VERSION`. -/
def setupDeprecateLargeTypes (current : Option Bool)
    (serverVersionInfo : List Nat) : Option Bool :=
  match current with
  | none => some (!tupleLt serverVersionInfo MS_2012_VERSION)
  | some b => some b

/-- Modelled from the spec: the pre-column position of a rendered SELECT,
`"SELECT " ++ precolumns ++ columns ++ " FROM " ++ table` (the core SELECT
renderer that places `get_select_precolumns` between `SELECT` and the
column list is outside this repository). -/
def renderSimpleSelect (cols tbl : String) (s : Select) : String :=
  "SELECT " ++ get_select_precolumns s ++ cols ++ " FROM " ++ tbl

end MssqlDialect

namespace MssqlDialect

/-! ## Theorems -/

/-- C1: under a capability with no native OFFSET/FETCH support, when the
pagination conditions force the ROW_NUMBER rewrite and OFFSET is present,
the rewritten outer query's filter list is exactly `rank > offset`,
followed by `rank <= limit + offset` exactly when LIMIT is also present
(and nothing else when LIMIT is absent), and the outer query carries no
ORDER BY clause. -/
theorem C1_rewrite_filters (s : Select) (o : LimExpr)
    (hguard : rowNumberRewriteApplies false s = true)
    (hoff : s.offset_clause = some o)
    (hord : s.order_by ≠ []) :
    translate_select_structure false s =
      .rewritten
        { inner := { s with mssql_visit := true, order_by := [] }
          rnOrderBy := s.order_by
          filters := .rankGt o ::
            (match s.limit_clause with
             | some l => [.rankLe (.add l o)]
             | none => [])
          outerOrderBy := [] } := by
  have hord' : s.order_by.isEmpty = false := by
    simpa [List.isEmpty_iff] using hord
  simp [translate_select_structure, hguard, hord', hoff]

/-- C1 witness: `SELECT x FROM t ORDER BY x LIMIT 5 OFFSET 10` under no
native pagination rewrites with filters `rank > 10` and `rank <= 5 + 10`
and no outer ORDER BY. -/
theorem C1_rewrite_filters_witness :
    translate_select_structure false
        ⟨some (.int 5), some (.int 10), ["x"], false⟩ =
      .rewritten
        { inner := ⟨some (.int 5), some (.int 10), [], true⟩
          rnOrderBy := ["x"]
          filters := [.rankGt (.int 10), .rankLe (.add (.int 5) (.int 10))]
          outerOrderBy := [] } := by
  have h := C1_rewrite_filters ⟨some (.int 5), some (.int 10), ["x"], false⟩
    (.int 10) (by decide) rfl (by decide)
  simpa using h

/-- C6: the ROW_NUMBER rewrite is idempotent — `translate_select_structure`
returns a statement already carrying the `_mssql_visit` tag unchanged. -/
theorem C6_rewrite_idempotent (supportsOffsetFetch : Bool) (s : Select)
    (h : s.mssql_visit = true) :
    translate_select_structure supportsOffsetFetch s = .ok s := by
  simp [translate_select_structure, rowNumberRewriteApplies, h]

/-- C6 witness: a tagged select with pagination that would otherwise be
rewritten is returned unchanged. -/
theorem C6_rewrite_idempotent_witness :
    translate_select_structure false
        ⟨some (.int 5), some (.int 10), [], true⟩ =
      .ok ⟨some (.int 5), some (.int 10), [], true⟩ :=
  C6_rewrite_idempotent false ⟨some (.int 5), some (.int 10), [], true⟩ rfl

/-- C5: a simple integer LIMIT with no OFFSET (or a simple OFFSET equal
to 0) renders as a leading `TOP n` pre-column modifier with the limit
value inlined as a literal (`processClause ... true`), not as a bound
parameter. -/
theorem C5_top_literal (s : Select) (n : Nat) (cols tbl : String)
    (hlim : s.limit_clause = some (.int n))
    (hoff : s.offset_clause = none ∨ s.offset_clause = some (.int 0)) :
    get_select_precolumns s = "TOP " ++ toString n ++ " " ∧
    renderSimpleSelect cols tbl s =
      "SELECT TOP " ++ toString n ++ " " ++ cols ++ " FROM " ++ tbl := by
  have htop : topApplies s = true := by
    rcases hoff with h | h <;>
      simp [topApplies, simpleIntLimit, simpleIntOffset, offsetVal, hlim, h]
  constructor
  · simp [get_select_precolumns, htop, hlim, processClause]
  · simp [renderSimpleSelect, get_select_precolumns, htop, hlim,
      processClause]
    rfl

/-- C5 witness: `SELECT x FROM t LIMIT 5` renders as
`SELECT TOP 5 x FROM t` with the literal `5` inlined. -/
theorem C5_top_literal_witness :
    get_select_precolumns ⟨some (.int 5), none, [], false⟩ = "TOP 5 " ∧
    renderSimpleSelect "x" "t" ⟨some (.int 5), none, [], false⟩ =
      "SELECT TOP 5 x FROM t" := by
  have h := C5_top_literal ⟨some (.int 5), none, [], false⟩ 5 "x" "t"
    rfl (Or.inl rfl)
  exact ⟨h.1, h.2⟩

/-- C4 counterexample: the claim fails as stated — with OFFSET present as a
simple integer 0 and no ORDER BY, neither the native OFFSET/FETCH branch
nor the ROW_NUMBER branch raises a CompileError: `limit_clause` returns the
empty clause and `translate_select_structure` returns the statement
unchanged, under either capability. -/
theorem C4_counterexample :
    limit_clause true ⟨none, some (.int 0), [], false⟩ = .ok "" ∧
    limit_clause false ⟨none, some (.int 0), [], false⟩ = .ok "" ∧
    translate_select_structure false ⟨none, some (.int 0), [], false⟩ =
      .ok ⟨none, some (.int 0), [], false⟩ ∧
    translate_select_structure true ⟨none, some (.int 0), [], false⟩ =
      .ok ⟨none, some (.int 0), [], false⟩ :=
  ⟨rfl, rfl, rfl, rfl⟩

/-- C4 (amended): if LIMIT or OFFSET is a non-simple expression, or OFFSET
is present as a simple nonzero integer, then on a statement that is not an
already-rewritten tree the absence of an ORDER BY clause is a compile-time
`CompileError` — in the native OFFSET/FETCH branch when the capability
supports it, and in the ROW_NUMBER rewrite branch when it does not. -/
theorem C4_order_by_required (supportsOffsetFetch : Bool) (s : Select)
    (hcond : ((!simpleIntLimit s && s.limit_clause.isSome) ||
        ((s.offset_clause.isSome && !simpleIntOffset s) ||
          offsetTruthy s)) = true)
    (hord : s.order_by = [])
    (hvisit : s.mssql_visit = false) :
    (supportsOffsetFetch = true →
      limit_clause supportsOffsetFetch s = .error compileErrorOrderBy) ∧
    (supportsOffsetFetch = false →
      translate_select_structure supportsOffsetFetch s =
        .error compileErrorOrderBy) := by
  constructor
  · intro hsup
    subst hsup
    have hnative : nativeOffsetFetchApplies true s = true := by
      simp only [nativeOffsetFetchApplies]
      rcases Bool.or_eq_true_iff.mp hcond with h | h
      · have h1 := (Bool.and_eq_true_iff.mp h).1
        have h2 := (Bool.and_eq_true_iff.mp h).2
        simp_all [Option.isSome_iff_exists, Option.isNone_iff_eq_none]
      · rcases Bool.or_eq_true_iff.mp h with h | h
        · have h1 := (Bool.and_eq_true_iff.mp h).1
          have h2 := (Bool.and_eq_true_iff.mp h).2
          simp_all [Option.isSome_iff_exists, Option.isNone_iff_eq_none]
        · simp_all
    simp [limit_clause, hnative, hord]
  · intro hsup
    subst hsup
    have hrw : rowNumberRewriteApplies false s = true := by
      simp [rowNumberRewriteApplies, hvisit, hcond]
    simp [translate_select_structure, hrw, hord]

/-- C4 (amended) witness: a simple nonzero OFFSET with no ORDER BY errors
in both branches. -/
theorem C4_order_by_required_witness :
    limit_clause true ⟨none, some (.int 3), [], false⟩ =
      .error compileErrorOrderBy ∧
    translate_select_structure false ⟨none, some (.int 3), [], false⟩ =
      .error compileErrorOrderBy := by
  have h1 := C4_order_by_required true ⟨none, some (.int 3), [], false⟩
    (by decide) rfl rfl
  have h2 := C4_order_by_required false ⟨none, some (.int 3), [], false⟩
    (by decide) rfl rfl
  exact ⟨h1.1 rfl, h2.2 rfl⟩

/-- C8 counterexample: the claim fails as stated — for a SELECT with no
LIMIT and no OFFSET, none of the three pagination strategies is applied,
under either capability, so "exactly one of the three" does not hold for
every statement. -/
theorem C8_counterexample :
    topApplies ⟨none, none, [], false⟩ = false ∧
    nativeOffsetFetchApplies true ⟨none, none, [], false⟩ = false ∧
    rowNumberRewriteApplies true ⟨none, none, [], false⟩ = false ∧
    nativeOffsetFetchApplies false ⟨none, none, [], false⟩ = false ∧
    rowNumberRewriteApplies false ⟨none, none, [], false⟩ = false := by
  decide

/-- C8 (amended): for every SELECT statement and capability, at most one of
the three pagination strategies (leading TOP modifier, native OFFSET/FETCH
clause, ROW_NUMBER rewrite) is applied — no two of their guards can hold
simultaneously; each guard is a pure function of the statement and the
capability, so the choice is made once per render. -/
theorem C8_strategies_exclusive (supportsOffsetFetch : Bool) (s : Select) :
    (topApplies s && nativeOffsetFetchApplies supportsOffsetFetch s) =
      false ∧
    (topApplies s && rowNumberRewriteApplies supportsOffsetFetch s) =
      false ∧
    (nativeOffsetFetchApplies supportsOffsetFetch s &&
      rowNumberRewriteApplies supportsOffsetFetch s) = false := by
  rcases s with ⟨lim, off, ob, visit⟩
  cases supportsOffsetFetch <;> cases visit <;>
    rcases lim with _ | (n | i) <;> rcases off with _ | (m | j) <;>
    simp [topApplies, nativeOffsetFetchApplies, rowNumberRewriteApplies,
      simpleIntLimit, simpleIntOffset, offsetTruthy, offsetVal]

/-- C3: when identity-insert mode was enabled, the invocation's statement
trace is exactly `SET ... ON`, the main statement, and one `SET ... OFF` —
whether or not the main statement raises; on a main-statement failure the
original error is the one propagated (a cleanup failure is suppressed by
`handle_dbapi_exception`'s `except: pass` and never surfaces). -/
theorem C3_identity_insert_pairing (c : ExecContext) (plan : FailurePlan)
    (h : enableIdentityInsert c = true) :
    (runInvocation c plan).1 =
      [.setIdentityInsertOn, .mainStatement, .setIdentityInsertOff] ∧
    (plan.mainFails = true →
      (runInvocation c plan).2.1 = some .mainFailure) ∧
    (runInvocation c plan).2.1 ≠ some .cleanupFailure := by
  have hsel : selectLastrowid c = false := by
    simp [selectLastrowid, h]
  cases hm : plan.mainFails <;>
    simp [runInvocation, pre_exec, post_exec, handle_dbapi_exception,
      h, hsel, hm]

/-- C3 witness: an INSERT supplying an explicit value for the identity
column, with both the main statement and the cleanup statement failing:
the trace is ON / main / OFF and the original main failure propagates. -/
theorem C3_identity_insert_pairing_witness :
    (runInvocation
        ⟨true, false, false, true, false, true, false, false, false, false,
          false, true⟩
        ⟨true, true, []⟩).1 =
      [.setIdentityInsertOn, .mainStatement, .setIdentityInsertOff] ∧
    (runInvocation
        ⟨true, false, false, true, false, true, false, false, false, false,
          false, true⟩
        ⟨true, true, []⟩).2.1 = some .mainFailure := by
  have h := C3_identity_insert_pairing
    ⟨true, false, false, true, false, true, false, false, false, false,
      false, true⟩
    ⟨true, true, []⟩ (by decide)
  exact ⟨h.1, h.2.1 rfl⟩

/-- C7 counterexample: the claim's conditions are not sufficient — for an
insert compiled in `inline` mode, the statement is a single-row (not
batched) INSERT whose autoincrement column is not Sequence-driven, uses no
RETURNING and did not enable identity-insert mode, yet `_select_lastrowid`
is false and no follow-up last-id fetch is issued. -/
theorem C7_counterexample :
    (insertHasIdentity
        ⟨true, false, false, true, false, false, false, false, true, false,
          false, true⟩ = true ∧
      enableIdentityInsert
        ⟨true, false, false, true, false, false, false, false, true, false,
          false, true⟩ = false) ∧
    selectLastrowid
      ⟨true, false, false, true, false, false, false, false, true, false,
        false, true⟩ = false ∧
    countLastIdFetch
      (runInvocation
        ⟨true, false, false, true, false, false, false, false, true, false,
          false, true⟩
        ⟨false, false, [[7]]⟩).1 = 0 := by
  decide

/-- C7 (amended): the follow-up last-generated-id fetch is issued exactly
when the statement is a single-row (not batched) INSERT, not compiled in
inline mode, into a table whose autoincrement column is not driven by a
Sequence, with no RETURNING and identity-insert mode not enabled; in that
case exactly one follow-up statement appears in the trace after the main
statement, and the single-row single-column result of the fetch becomes the
generated key. -/
theorem C7_lastrowid_fetch (c : ExecContext) (plan : FailurePlan) (v : Int)
    (hmain : plan.mainFails = false)
    (hrows : plan.lastIdRows = [[v]]) :
    (selectLastrowid c = true ↔
      (c.isinsert = true ∧ c.inline = false ∧ insertHasIdentity c = true ∧
        c.returning = false ∧ enableIdentityInsert c = false ∧
        c.executemany = false)) ∧
    countLastIdFetch (runInvocation c plan).1 =
      (if selectLastrowid c then 1 else 0) ∧
    (selectLastrowid c = true →
      (runInvocation c plan).1 =
        [.mainStatement,
          if c.useScopeIdentity then .selectScopeIdentity
          else .selectAtAtIdentity] ∧
      (runInvocation c plan).2.2 = some v) := by
  have hen_of_sel : selectLastrowid c = true →
      enableIdentityInsert c = false := by
    intro hsel
    cases hen : enableIdentityInsert c
    · rfl
    · exfalso
      simp [selectLastrowid, hen] at hsel
  refine ⟨?_, ?_, ?_⟩
  · simp [selectLastrowid]
    tauto
  · cases hsel : selectLastrowid c
    · cases hen : enableIdentityInsert c <;>
        cases huse : c.useScopeIdentity <;>
        simp [runInvocation, pre_exec, post_exec, countLastIdFetch,
          hmain, hsel, hen, huse]
    · have hen := hen_of_sel hsel
      cases huse : c.useScopeIdentity <;>
        simp [runInvocation, pre_exec, post_exec, countLastIdFetch,
          hmain, hsel, hen, huse]
  · intro hsel
    have hen := hen_of_sel hsel
    cases huse : c.useScopeIdentity <;>
      simp [runInvocation, pre_exec, post_exec, hmain, hsel, huse, hen,
        hrows, parseLastId]

/-- C7 (amended) witness: a plain single-row INSERT with an identity column
and no explicit key value issues exactly one `scope_identity()` fetch after
the main statement and parses its single value `7` as the generated key. -/
theorem C7_lastrowid_fetch_witness :
    countLastIdFetch
      (runInvocation
        ⟨true, false, false, true, false, false, false, false, false, false,
          false, true⟩
        ⟨false, false, [[7]]⟩).1 = 1 ∧
    (runInvocation
        ⟨true, false, false, true, false, false, false, false, false, false,
          false, true⟩
        ⟨false, false, [[7]]⟩).2.2 = some 7 := by
  have h := C7_lastrowid_fetch
    ⟨true, false, false, true, false, false, false, false, false, false,
      false, true⟩
    ⟨false, false, [[7]]⟩ 7 rfl rfl
  refine ⟨?_, (h.2.2 (by decide)).2⟩
  rw [h.2.1]
  decide

/-- C9: with the deprecate-large-types flag truthy, the logical
unicode-large-text and large-binary kinds render as `NVARCHAR(max)` and
`VARBINARY(max)`; with the flag false or still unset they render as
`NTEXT` and `IMAGE`; and when the flag is unset at version setup it is set
to whether the server version is at least `MS_2012_VERSION = (11,)`, i.e.
major version 11 or greater. -/
theorem C9_large_types (dep : Option Bool) (v : List Nat) (t : TypeDescr)
    (hlen : t.length = none) (hcol : t.collation = none) :
    (truthyOpt dep = true →
      visit_unicode_text dep t = "NVARCHAR(max)" ∧
      visit_large_binary dep t = "VARBINARY(max)") ∧
    (truthyOpt dep = false →
      visit_unicode_text dep t = "NTEXT" ∧
      visit_large_binary dep t = "IMAGE") ∧
    setupDeprecateLargeTypes none v =
      some (!tupleLt v MS_2012_VERSION) ∧
    (∀ major rest, v = major :: rest →
      setupDeprecateLargeTypes none v = some (decide (11 ≤ major))) := by
  refine ⟨?_, ?_, rfl, ?_⟩
  · intro hd
    constructor
    · simp [visit_unicode_text, visit_NVARCHAR, extendType, lengthOrMax,
        typeLengthStr, hd, hlen, hcol]
      decide
    · simp [visit_large_binary, visit_VARBINARY, extendType, lengthOrMax,
        typeLengthStr, hd, hlen, hcol]
      decide
  · intro hd
    constructor
    · simp [visit_unicode_text, visit_NTEXT, extendType, typeLengthStr,
        hd, hlen, hcol]
    · simp [visit_large_binary, visit_IMAGE, hd]
  · intro major rest hv
    subst hv
    have hrest : tupleLt rest [] = false := by
      cases rest <;> rfl
    by_cases h : 11 ≤ major
    · simp [setupDeprecateLargeTypes, MS_2012_VERSION, tupleLt, hrest, h,
        Nat.not_lt.mpr h]
    · have h' : major < 11 := Nat.not_le.mp h
      simp [setupDeprecateLargeTypes, MS_2012_VERSION, tupleLt, hrest, h,
        h']

/-! ### Schema-tokenizer lemmas -/

/-- In the non-bracket state, a bracket-free prefix followed by an
unbracketed `.` contributes exactly the dot-segments of `symbol ++ prefix`
to the push list. -/
theorem schemaPushes_plain_append (a : List Char) :
    ∀ (sym rest : List Char),
      (∀ c ∈ a, c ≠ '[' ∧ c ≠ ']') → ('.' ∉ sym) →
      schemaPushes (a ++ '.' :: rest) sym false false =
        (sym ++ a).splitOn '.' ++ schemaPushes rest [] false false := by
  induction a with
  | nil =>
    intro sym rest _ hsym
    simp only [List.nil_append, List.append_nil, schemaPushes]
    rw [List.splitOn, List.splitOnP_eq_single]
    · rfl
    · intro x hx
      simp only [beq_iff_eq]
      exact fun h => hsym (h ▸ hx)
  | cons c a ih =>
    intro sym rest ha hsym
    have hc := ha c (List.mem_cons_self c a)
    have ha' : ∀ x ∈ a, x ≠ '[' ∧ x ≠ ']' :=
      fun x hx => ha x (List.mem_cons_of_mem c hx)
    by_cases hdot : c = '.'
    · subst hdot
      have h1 : schemaPushes (('.' :: a) ++ '.' :: rest) sym false false =
          sym :: schemaPushes (a ++ '.' :: rest) [] false false := by
        simp [schemaPushes]
      rw [h1, ih [] rest ha' (by simp)]
      have h2 : (sym ++ '.' :: a).splitOn '.' = sym :: a.splitOn '.' := by
        rw [List.splitOn, List.splitOnP_first _ _
          (fun x hx => by
            simp only [beq_iff_eq]
            exact fun h => hsym (h ▸ hx)) '.' (by simp)]
        rfl
      rw [h2]
      simp
    · have h1 : schemaPushes ((c :: a) ++ '.' :: rest) sym false false =
          schemaPushes (a ++ '.' :: rest) (sym ++ [c]) false false := by
        simp [schemaPushes, hc.1, hc.2, hdot]
      rw [h1, ih (sym ++ [c]) rest ha'
        (by
          intro hmem
          rcases List.mem_append.mp hmem with h | h
          · exact hsym h
          · simp only [List.mem_singleton] at h
            exact hdot h.symm)]
      simp

/-- In the non-bracket state, a bracket-free dot-free remainder is pushed
as a single final symbol. -/
theorem schemaPushes_plain_tail (b : List Char) :
    ∀ (sym : List Char) (hb : Bool),
      (∀ c ∈ b, c ≠ '[' ∧ c ≠ ']' ∧ c ≠ '.') →
      schemaPushes b sym false hb =
        if (sym ++ b).isEmpty then [] else [sym ++ b] := by
  induction b with
  | nil =>
    intro sym hb _
    simp [schemaPushes]
  | cons c b ih =>
    intro sym hb hcs
    have hc := hcs c (List.mem_cons_self c b)
    have hb' : ∀ x ∈ b, x ≠ '[' ∧ x ≠ ']' ∧ x ≠ '.' :=
      fun x hx => hcs x (List.mem_cons_of_mem c hx)
    have h1 : schemaPushes (c :: b) sym false hb =
        schemaPushes b (sym ++ [c]) false hb := by
      simp [schemaPushes, hc.1, hc.2.1, hc.2.2]
    rw [h1, ih (sym ++ [c]) hb hb']
    have : (sym ++ [c] ++ b).isEmpty = false := by
      cases sym <;> rfl
    rw [this]
    have h2 : (sym ++ c :: b).isEmpty = false := by
      cases sym <;> rfl
    rw [h2]
    simp

/-- In the bracket state, every bracket-free character (dots included) is
appended to the current symbol. -/
theorem schemaPushes_bracketed (u : List Char) :
    ∀ (sym rest : List Char),
      (∀ c ∈ u, c ≠ '[' ∧ c ≠ ']') →
      schemaPushes (u ++ rest) sym true true =
        schemaPushes rest (sym ++ u) true true := by
  induction u with
  | nil => intro sym rest _; simp
  | cons c u ih =>
    intro sym rest hu
    have hc := hu c (List.mem_cons_self c u)
    have hu' : ∀ x ∈ u, x ≠ '[' ∧ x ≠ ']' :=
      fun x hx => hu x (List.mem_cons_of_mem c hx)
    have h1 : schemaPushes ((c :: u) ++ rest) sym true true =
        schemaPushes (u ++ rest) (sym ++ [c]) true true := by
      simp [schemaPushes, hc.1, hc.2]
    rw [h1, ih (sym ++ [c]) rest hu']
    simp

theorem dropWhile_eq_self_of_all {p : Char → Bool} :
    ∀ (l : List Char), (∀ c ∈ l, p c = false) → l.dropWhile p = l := by
  intro l h
  cases l with
  | nil => rfl
  | cons c t =>
    rw [List.dropWhile_cons, h c (List.mem_cons_self c t)]
    simp

theorem dropWhile_eq_nil_of_all {p : Char → Bool} :
    ∀ (l : List Char), (∀ c ∈ l, p c = true) → l.dropWhile p = [] := by
  intro l h
  induction l with
  | nil => rfl
  | cons c t ih =>
    rw [List.dropWhile_cons, h c (List.mem_cons_self c t)]
    exact ih (fun x hx => h x (List.mem_cons_of_mem c hx))

theorem hasCloseThenOpen_eq_false (xs : List Char)
    (h : ∀ c ∈ xs, c ≠ ']') : hasCloseThenOpen xs = false := by
  rw [hasCloseThenOpen]
  rw [dropWhile_eq_nil_of_all xs
    (fun c hc => by
      simp only [ne_eq, decide_eq_true_eq]
      exact h c hc)]

theorem internalBracketTest_eq_false (xs : List Char)
    (h : ∀ c ∈ xs, c ≠ ']') : internalBracketTest xs = false := by
  rw [internalBracketTest]
  exact hasCloseThenOpen_eq_false _
    (fun c hc => h c (List.takeWhile_subset _ hc))

theorem stripOuterBrackets_eq_self (a : List Char)
    (h : ∀ c ∈ a, c ≠ '[' ∧ c ≠ ']') : stripOuterBrackets a = a := by
  rw [stripOuterBrackets]
  rw [dropWhile_eq_self_of_all a
    (fun c hc => by
      simp only [decide_eq_false_iff_not]
      exact (h c hc).1)]
  rw [dropWhile_eq_self_of_all a.reverse
    (fun c hc => by
      simp only [decide_eq_false_iff_not]
      exact (h c (List.mem_reverse.mp hc)).2)]
  exact List.reverse_reverse a

/-- C2: `_schema_elements` splits on the last unbracketed `.`: on a
bracket-free schema `a ++ "." ++ b` whose final segment `b` contains no
dot, the database part is everything before that dot (`a`) and the owner is
`b`; and bracket pairs suppress the separator meaning of `.`: on
`"[u].[v]"` with arbitrary bracket-free `u` and `v` (dots allowed), the
result is database `u` and owner `v` with the brackets stripped. -/
theorem C2_schema_split (a b u v : List Char)
    (ha : ∀ c ∈ a, c ≠ '[' ∧ c ≠ ']')
    (hb : ∀ c ∈ b, c ≠ '[' ∧ c ≠ ']' ∧ c ≠ '.')
    (hb0 : b ≠ [])
    (hu : ∀ c ∈ u, c ≠ '[' ∧ c ≠ ']')
    (hv : ∀ c ∈ v, c ≠ '[' ∧ c ≠ ']')
    (hv0 : v ≠ []) :
    schemaElementsCore (a ++ '.' :: b) = (some a, some b) ∧
    schemaElementsCore ('[' :: (u ++ (']' :: '.' :: '[' :: (v ++ [']'])))) =
      (some u, some v) := by
  constructor
  · have hpush : schemaPushes (a ++ '.' :: b) [] false false =
        a.splitOn '.' ++ [b] := by
      rw [schemaPushes_plain_append a [] b ha (by simp)]
      rw [schemaPushes_plain_tail b [] false hb]
      have hne : (([] : List Char) ++ b).isEmpty = false := by
        cases b with
        | nil => exact absurd rfl hb0
        | cons c t => rfl
      rw [hne]
      simp
    have hlen : (a.splitOn '.' ++ [b]).length > 1 := by
      have h1 : a.splitOn '.' ≠ [] := List.splitOnP_ne_nil _ a
      have h2 : 1 ≤ (a.splitOn '.').length := List.length_pos.mpr h1
      simp only [List.length_append, List.length_cons, List.length_nil]
      omega
    have hnob : ∀ c ∈ (a.drop 1).dropLast, c ≠ ']' :=
      fun c hc =>
        (ha c (List.drop_subset 1 a (List.dropLast_subset _ hc))).2
    simp only [schemaElementsCore, hpush]
    rw [if_pos hlen]
    rw [List.dropLast_concat, List.getLastD_concat]
    rw [@List.intercalate_splitOn _ a '.' _]
    rw [internalBracketTest_eq_false _ hnob]
    rw [if_neg (by simp)]
    rw [stripOuterBrackets_eq_self a ha]
  · have hpush : schemaPushes
        ('[' :: (u ++ (']' :: '.' :: '[' :: (v ++ [']'])))) [] false false =
        [('[' :: (u ++ [']'])), v] := by
      have h1 : schemaPushes
          ('[' :: (u ++ (']' :: '.' :: '[' :: (v ++ [']'])))) [] false false =
          schemaPushes (u ++ (']' :: '.' :: '[' :: (v ++ [']'])))
            [] true true := rfl
      rw [h1]
      rw [schemaPushes_bracketed u [] (']' :: '.' :: '[' :: (v ++ [']'])) hu]
      have h2 : schemaPushes (']' :: '.' :: '[' :: (v ++ [']']))
          ([] ++ u) true true =
          ('[' :: (([] ++ u) ++ [']'])) ::
            schemaPushes (v ++ [']']) [] true true := rfl
      rw [h2]
      rw [schemaPushes_bracketed v [] [']'] hv]
      have h3 : schemaPushes [']'] ([] ++ v) true true =
          if ([] ++ v : List Char).isEmpty then []
          else [([] ++ v : List Char)] := rfl
      rw [h3]
      have hv1 : (([] : List Char) ++ v).isEmpty = false := by
        cases v with
        | nil => exact absurd rfl hv0
        | cons c t => rfl
      rw [hv1]
      simp
    have hstrip : stripOuterBrackets ('[' :: (u ++ [']'])) = u := by
      rw [stripOuterBrackets]
      rw [show ('[' :: (u ++ [']'])).dropWhile (· = '[') =
          (u ++ [']']).dropWhile (· = '[') by
        rw [List.dropWhile_cons]
        simp]
      rw [dropWhile_eq_self_of_all (u ++ [']'])
        (fun c hc => by
          simp only [decide_eq_false_iff_not]
          rcases List.mem_append.mp hc with h | h
          · exact (hu c h).1
          · simp only [List.mem_singleton] at h
            subst h
            decide)]
      rw [show (u ++ [']']).reverse = ']' :: u.reverse by simp]
      rw [List.dropWhile_cons]
      simp only [decide_True, if_true]
      rw [dropWhile_eq_self_of_all u.reverse
        (fun c hc => by
          simp only [decide_eq_false_iff_not]
          exact (hu c (List.mem_reverse.mp hc)).2)]
      exact List.reverse_reverse u
    simp only [schemaElementsCore, hpush]
    rw [if_pos (by simp)]
    rw [show ([('[' :: (u ++ [']'])), v]).dropLast =
      [('[' :: (u ++ [']']))] from rfl]
    rw [show ([('[' :: (u ++ [']'])), v]).getLastD [] = v from rfl]
    rw [show List.intercalate ['.'] [('[' :: (u ++ [']']))] =
        '[' :: (u ++ [']']) by simp [List.intercalate]]
    rw [show ('[' :: (u ++ [']'])).drop 1 = u ++ [']'] from rfl]
    rw [List.dropLast_concat]
    rw [internalBracketTest_eq_false u (fun c hc => (hu c hc).2)]
    rw [if_neg (by simp)]
    rw [hstrip]

/-- C2 witness: the schema string `"[MyDataBase.Period].[MyOwner.Dot]"`
resolves to database `"MyDataBase.Period"` and owner `"MyOwner.Dot"`. -/
theorem C2_schema_split_witness :
    schemaElementsCore "[MyDataBase.Period].[MyOwner.Dot]".data =
      (some "MyDataBase.Period".data, some "MyOwner.Dot".data) := by
  have h := C2_schema_split ['a'] ['b']
    "MyDataBase.Period".data "MyOwner.Dot".data
    (by decide) (by decide) (by decide)
    (by decide) (by decide) (by decide)
  have heq : "[MyDataBase.Period].[MyOwner.Dot]".data =
      '[' :: ("MyDataBase.Period".data ++
        (']' :: '.' :: '[' :: ("MyOwner.Dot".data ++ [']']))) := by
    decide
  rw [heq]
  exact h.2

/-- C10: a schema input carrying the `quote` flag is returned as
`(None, schema)` unchanged — never split, with the memoization cache left
untouched and unread; the dialect's default-schema probe wraps its result
as such a quoted name, so a reflected default schema containing dots is
never split by `_owner_plus_db`. -/
theorem C10_quoted_schema_unsplit
    (cache : List (List Char × (Option (List Char) × Option (List Char))))
    (s : RawSchema) (v : List Nat) (name defaultName : List Char)
    (hq : s.quote = true)
    (hv : tupleLt v MS_2005_VERSION = false)
    (hn : name ≠ []) :
    schemaElementsCached cache s = ((none, some s.name), cache) ∧
    get_default_schema_name v (some name) defaultName = ⟨name, true⟩ ∧
    owner_plus_db defaultName
      (get_default_schema_name v (some name) defaultName) =
      (none, some name) := by
  have hdef : get_default_schema_name v (some name) defaultName =
      ⟨name, true⟩ := by
    simp [get_default_schema_name, hv]
  refine ⟨by simp [schemaElementsCached, hq], hdef, ?_⟩
  rw [hdef]
  have hne : name.isEmpty = false := by
    cases name with
    | nil => exact absurd rfl hn
    | cons c t => rfl
  have hc : (schemaElementsCached []
      (⟨name, true⟩ : RawSchema)).1 = (none, some name) := rfl
  cases hdot : name.contains '.' <;>
    simp [owner_plus_db, hne, hdot, hc]

/-- C10 witness: a quoted schema name containing dots resolves unsplit,
with a non-empty cache left untouched. -/
theorem C10_quoted_schema_unsplit_witness :
    schemaElementsCached [("dbo".data, (none, some "dbo".data))]
        ⟨"My.Schema".data, true⟩ =
      ((none, some "My.Schema".data),
        [("dbo".data, (none, some "dbo".data))]) ∧
    owner_plus_db "dbo".data
      (get_default_schema_name [11] (some "has.dots".data) "dbo".data) =
      (none, some "has.dots".data) := by
  have h1 := C10_quoted_schema_unsplit
    [("dbo".data, (none, some "dbo".data))]
    ⟨"My.Schema".data, true⟩ [11] "has.dots".data "dbo".data
    rfl (by decide) (by decide)
  exact ⟨h1.1, h1.2.2⟩

/-- C9 witness: concrete renderings and version-setup resolutions. -/
theorem C9_large_types_witness :
    visit_unicode_text (some true) ⟨none, none⟩ = "NVARCHAR(max)" ∧
    visit_large_binary (some true) ⟨none, none⟩ = "VARBINARY(max)" ∧
    visit_unicode_text none ⟨none, none⟩ = "NTEXT" ∧
    visit_large_binary (some false) ⟨none, none⟩ = "IMAGE" ∧
    setupDeprecateLargeTypes none [11, 0, 2100] = some true ∧
    setupDeprecateLargeTypes none [10, 50] = some false := by
  have h1 := C9_large_types (some true) [11, 0, 2100] ⟨none, none⟩ rfl rfl
  have h2 := C9_large_types none [10, 50] ⟨none, none⟩ rfl rfl
  have h3 := C9_large_types (some false) [10, 50] ⟨none, none⟩ rfl rfl
  refine ⟨(h1.1 rfl).1, (h1.1 rfl).2, (h2.2.1 rfl).1, (h3.2.1 rfl).2,
    ?_, ?_⟩
  · have := h1.2.2.2 11 [0, 2100] rfl
    simpa using this
  · have := h2.2.2.2 10 [50] rfl
    simpa using this

end MssqlDialect
